import Mathlib

/-!
Verification of the polkadot runtime primitive types and their `Slicable`
codec (`polkadot/runtime/src/primitives.rs`), as a shallow embedding.

Bytes are modelled as `Nat` (well-formed encodings only ever contain
values below 256).  A decoder is a function from the input byte list to
the decoded value (or failure) together with the bytes still unread at
the point where the decoder stopped — this mirrors the `&mut I` reader
of the source, whose cursor position survives a failed decode.
-/

namespace PolkadotRuntime

/-- A decoder over a forward-only byte reader: it returns the decoded
value (or `none` on failure) together with the bytes left unread where
the decoder stopped. -/
def DecM (α : Type) : Type := List Nat → Option α × List Nat

/-- Decoder returning a fixed value, consuming nothing. -/
def decPure {α : Type} (a : α) : DecM α := fun input => (some a, input)

/-- Failing decoder: consumes nothing and yields no value (the `_ => None`
arms of the source). -/
def decFail {α : Type} : DecM α := fun input => (none, input)

/-- Sequential composition of decoders, short-circuiting on failure: the
`?` operator of the source applied to a decode on the shared reader. -/
def decBind {α β : Type} (m : DecM α) (f : α → DecM β) : DecM β := fun input =>
  match m input with
  | (none, rest) => (none, rest)
  | (some a, rest) => f a rest

/-- Transform a decoder's result (the `.map` of the source). -/
def decMap {α β : Type} (f : α → β) (m : DecM α) : DecM β := fun input =>
  match m input with
  | (none, rest) => (none, rest)
  | (some a, rest) => (some (f a), rest)

/-- Modelled from the spec: the buffer reader's `read_byte` (the `Input`
trait is not part of src/) — return the next byte and advance by one,
failing on end of input. -/
def readByte : DecM Nat := fun input =>
  match input with
  | [] => (none, [])
  | b :: rest => (some b, rest)

/-- Modelled from the spec: the buffer reader's "read N bytes" (the
`Input` trait is not part of src/) — return the next `n` bytes and
advance by `n`, failing when fewer than `n` remain. -/
def readBytes (n : Nat) : DecM (List Nat) := fun input =>
  if n ≤ input.length then (some (input.take n), input.drop n)
  else (none, input.drop n)

/-- Modelled from the spec: a u32 encodes as exactly 4 bytes,
least-significant byte first (the codec crate is not part of src/). -/
def encodeU32 (x : Nat) : List Nat :=
  [x % 256, x / 256 % 256, x / 65536 % 256, x / 16777216 % 256]

/-- Little-endian value of a byte list. -/
def fromLE (bs : List Nat) : Nat := bs.foldr (fun b acc => b + 256 * acc) 0

/-- Modelled from the spec: a u32 decodes by reading 4 bytes, LSB first. -/
def decodeU32 : DecM Nat := decMap fromLE (readBytes 4)

/-- Modelled from the spec: a u64 encodes as exactly 8 bytes,
least-significant byte first. -/
def encodeU64 (x : Nat) : List Nat :=
  [x % 256, x / 256 % 256, x / 65536 % 256, x / 16777216 % 256,
   x / 4294967296 % 256, x / 1099511627776 % 256,
   x / 281474976710656 % 256, x / 72057594037927936 % 256]

/-- Modelled from the spec: a u64 decodes by reading 8 bytes, LSB first. -/
def decodeU64 : DecM Nat := decMap fromLE (readBytes 8)

/-- Modelled from the spec: a byte sequence (`Vec<u8>`) encodes as a
length prefix (unsigned count) followed by the raw bytes. -/
def encodeBytes (b : List Nat) : List Nat := encodeU32 b.length ++ b

/-- Modelled from the spec: byte-sequence decode reads the length first,
then exactly that many bytes. -/
def decodeBytes : DecM (List Nat) := decBind decodeU32 fun n => readBytes n

/-- Modelled from the spec: a sequence encodes as a length prefix
(unsigned count) followed by the concatenation of each element's own
encoding. -/
def encodeVec {α : Type} (encT : α → List Nat) (xs : List α) : List Nat :=
  encodeU32 xs.length ++ (xs.map encT).flatten

/-- Decode exactly `n` elements in sequence, short-circuiting on the
first element failure. -/
def decodeN {α : Type} (decT : DecM α) : Nat → DecM (List α)
  | 0 => decPure []
  | n + 1 => decBind decT fun x => decMap (fun xs => x :: xs) (decodeN decT n)

/-- Modelled from the spec: sequence decode reads the declared count and
then decodes exactly that many elements. -/
def decodeVec {α : Type} (decT : DecM α) : DecM (List α) :=
  decBind decodeU32 fun n => decodeN decT n

/-- Modelled from the spec: pairs encode as the concatenation of the two
components' encodings, no extra framing. -/
def encodePair {α β : Type} (encA : α → List Nat) (encB : β → List Nat)
    (p : α × β) : List Nat :=
  encA p.1 ++ encB p.2

/-- Modelled from the spec: pair decode runs the two component decoders
in order. -/
def decodePair {α β : Type} (decA : DecM α) (decB : DecM β) : DecM (α × β) :=
  decBind decA fun a => decMap (fun b => (a, b)) decB

/-- A 32-byte hash / account id (`substrate_primitives::H256`), modelled
by its byte contents; well-formed when it holds exactly 32 bytes. -/
structure H256 where
  bytes : List Nat
deriving DecidableEq

/-- An `H256` value is well formed when it holds exactly 32 bytes. -/
def H256.WF (h : H256) : Prop := h.bytes.length = 32

instance : DecidablePred H256.WF := fun h => by unfold H256.WF; infer_instance

/-- Modelled from the spec: an `H256` encodes as its 32 raw bytes, no
length prefix. -/
def encodeH256 (h : H256) : List Nat := h.bytes

/-- Modelled from the spec: `H256` decode reads exactly 32 bytes. -/
def decodeH256 : DecM H256 := decMap H256.mk (readBytes 32)

/-- `pub struct Id(u32)` — unique identifier of a parachain. -/
structure Id where
  val : Nat
deriving DecidableEq

/-- An `Id` is well formed when its value fits in a u32. -/
def Id.WF (i : Id) : Prop := i.val < 4294967296

instance : DecidablePred Id.WF := fun i => by unfold Id.WF; infer_instance

/-- `impl From<u32> for Id`. -/
def Id.fromU32 (x : Nat) : Id := Id.mk x

/-- `impl From<Id> for u32`. -/
def Id.intoU32 (i : Id) : Nat := i.val

/-- `Id::into_inner`. -/
def Id.into_inner (i : Id) : Nat := i.val

/-- `Slicable for Id`: encode as the inner u32. -/
def Id.encode (i : Id) : List Nat := encodeU32 i.val

/-- `Slicable for Id`: `u32::decode(input).map(Id)`. -/
def Id.decode : DecM Id := decMap Id.mk decodeU32

/-- `enum Chain { Relay, Parachain(Id) }`. -/
inductive Chain where
  | Relay : Chain
  | Parachain : Id → Chain
deriving DecidableEq

/-- A `Chain` is well formed when its payload (if any) is. -/
def Chain.WF : Chain → Prop
  | Chain.Relay => True
  | Chain.Parachain i => i.WF

instance : DecidablePred Chain.WF := fun c => by
  cases c <;> (unfold Chain.WF; infer_instance)

/-- `Chain::encode`: push the discriminant byte (0 for `Relay`, 1 for
`Parachain`), then the payload encoding. -/
def Chain.encode : Chain → List Nat
  | Chain.Relay => [0]
  | Chain.Parachain i => 1 :: Id.encode i

/-- `Chain::decode`: read the discriminant byte, dispatch on 0 / 1, fail
on anything else. -/
def Chain.decode : DecM Chain :=
  decBind readByte fun disc =>
    match disc with
    | 0 => decPure Chain.Relay
    | 1 => decMap Chain.Parachain Id.decode
    | _ => decFail

/-- `struct DutyRoster` — validator and guarantor duty assignments. -/
structure DutyRoster where
  validator_duty : List Chain
  guarantor_duty : List Chain
deriving DecidableEq

/-- A `DutyRoster` is well formed when both sequences have u32-sized
lengths and well-formed elements. -/
def DutyRoster.WF (d : DutyRoster) : Prop :=
  d.validator_duty.length < 4294967296 ∧ (∀ c ∈ d.validator_duty, c.WF) ∧
  d.guarantor_duty.length < 4294967296 ∧ (∀ c ∈ d.guarantor_duty, c.WF)

instance : DecidablePred DutyRoster.WF := fun d => by
  unfold DutyRoster.WF; infer_instance

/-- `DutyRoster::encode`: the two `Vec<Chain>` encodings concatenated. -/
def DutyRoster.encode (d : DutyRoster) : List Nat :=
  encodeVec Chain.encode d.validator_duty ++ encodeVec Chain.encode d.guarantor_duty

/-- `DutyRoster::decode`: decode the two `Vec<Chain>` fields in order. -/
def DutyRoster.decode : DecM DutyRoster :=
  decBind (decodeVec Chain.decode) fun v =>
  decBind (decodeVec Chain.decode) fun g =>
  decPure (DutyRoster.mk v g)

/-- `struct HeadData(Vec<u8>)` — parachain head data. -/
structure HeadData where
  bytes : List Nat
deriving DecidableEq

/-- A `HeadData` is well formed when its length fits in a u32. -/
def HeadData.WF (h : HeadData) : Prop := h.bytes.length < 4294967296

instance : DecidablePred HeadData.WF := fun h => by unfold HeadData.WF; infer_instance

/-- Modelled from the spec: `HeadData` is an opaque byte wrapper sharing
the byte-sequence wire layout (no standalone `Slicable` impl in src/;
`CandidateReceipt` encodes the inner `Vec<u8>` directly). -/
def HeadData.encode (h : HeadData) : List Nat := encodeBytes h.bytes

/-- Modelled from the spec: `HeadData` decodes as a byte sequence, then
wraps. -/
def HeadData.decode : DecM HeadData := decMap HeadData.mk decodeBytes

/-- `struct CandidateReceipt` — commitment to a parachain candidate. -/
structure CandidateReceipt where
  parachain_index : Id
  collator : H256
  head_data : HeadData
  balance_uploads : List (H256 × Nat)
  egress_queue_roots : List (Id × H256)
  fees : Nat
deriving DecidableEq

/-- A `CandidateReceipt` is well formed when every field is: u32/u64
fields in range, hashes 32 bytes long, sequence lengths u32-sized. -/
def CandidateReceipt.WF (r : CandidateReceipt) : Prop :=
  r.parachain_index.WF ∧ r.collator.WF ∧ r.head_data.WF ∧
  r.balance_uploads.length < 4294967296 ∧
  (∀ p ∈ r.balance_uploads, p.1.WF ∧ p.2 < 18446744073709551616) ∧
  r.egress_queue_roots.length < 4294967296 ∧
  (∀ p ∈ r.egress_queue_roots, p.1.WF ∧ p.2.WF) ∧
  r.fees < 18446744073709551616

instance : DecidablePred CandidateReceipt.WF := fun r => by
  unfold CandidateReceipt.WF; infer_instance

/-- `CandidateReceipt::encode`: the six fields' encodings concatenated in
declaration order, no padding, no overall length prefix. -/
def CandidateReceipt.encode (r : CandidateReceipt) : List Nat :=
  Id.encode r.parachain_index ++ encodeH256 r.collator ++
  encodeBytes r.head_data.bytes ++
  encodeVec (encodePair encodeH256 encodeU64) r.balance_uploads ++
  encodeVec (encodePair Id.encode encodeH256) r.egress_queue_roots ++
  encodeU64 r.fees

/-- `CandidateReceipt::decode`: decode the six fields in declaration
order, short-circuiting on the first failure. -/
def CandidateReceipt.decode : DecM CandidateReceipt :=
  decBind Id.decode fun pi =>
  decBind decodeH256 fun collator =>
  decBind (decMap HeadData.mk decodeBytes) fun hd =>
  decBind (decodeVec (decodePair decodeH256 decodeU64)) fun bu =>
  decBind (decodeVec (decodePair Id.decode decodeH256)) fun eg =>
  decBind decodeU64 fun fees =>
  decPure (CandidateReceipt.mk pi collator hd bu eg fees)

/-- Comparison of two naturals, as Rust's derived `Ord` on `u32`. -/
def compareNat (a b : Nat) : Ordering :=
  if a < b then Ordering.lt else if b < a then Ordering.gt else Ordering.eq

/-- Lexicographic comparison of byte sequences, as Rust's `Ord` on
`Vec<u8>`: element-wise, a strict prefix compares less. -/
def compareBytes : List Nat → List Nat → Ordering
  | [], [] => Ordering.eq
  | [], _ :: _ => Ordering.lt
  | _ :: _, [] => Ordering.gt
  | a :: as, b :: bs => (compareNat a b).then (compareBytes as bs)

/-- Derived `Ord` on `Id(u32)`: numeric comparison. -/
def Id.cmp (a b : Id) : Ordering := compareNat a.val b.val

/-- Derived `Ord` on `HeadData(Vec<u8>)`: byte-lexicographic. -/
def HeadData.cmp (a b : HeadData) : Ordering := compareBytes a.bytes b.bytes

/-- `Ord for CandidateReceipt`: compare by `parachain_index`, then by
`head_data`, ignoring every other field. -/
def CandidateReceipt.cmp (a b : CandidateReceipt) : Ordering :=
  (Id.cmp a.parachain_index b.parachain_index).then
    (HeadData.cmp a.head_data b.head_data)

/-- `enum StatementKind` (`#[repr(u8)]`, discriminants 1..4). -/
inductive StatementKind where
  | Candidate : StatementKind
  | Valid : StatementKind
  | Invalid : StatementKind
  | Available : StatementKind
deriving DecidableEq

/-- The `u8` value of each `StatementKind` discriminant. -/
def StatementKind.toByte : StatementKind → Nat
  | StatementKind.Candidate => 1
  | StatementKind.Valid => 2
  | StatementKind.Invalid => 3
  | StatementKind.Available => 4

/-- `enum Statement` — statements about parachain candidates. -/
inductive Statement where
  | Candidate : CandidateReceipt → Statement
  | Valid : H256 → Statement
  | Invalid : H256 → Statement
  | Available : H256 → Statement
deriving DecidableEq

/-- A `Statement` is well formed when its payload is. -/
def Statement.WF : Statement → Prop
  | Statement.Candidate r => r.WF
  | Statement.Valid h => h.WF
  | Statement.Invalid h => h.WF
  | Statement.Available h => h.WF

instance : DecidablePred Statement.WF := fun s => by
  cases s <;> (unfold Statement.WF; infer_instance)

/-- `Statement::encode`: push the `StatementKind` discriminant byte, then
the payload encoding. -/
def Statement.encode : Statement → List Nat
  | Statement.Candidate r => StatementKind.toByte StatementKind.Candidate :: r.encode
  | Statement.Valid h => StatementKind.toByte StatementKind.Valid :: encodeH256 h
  | Statement.Invalid h => StatementKind.toByte StatementKind.Invalid :: encodeH256 h
  | Statement.Available h => StatementKind.toByte StatementKind.Available :: encodeH256 h

/-- `Statement::decode`: read the discriminant byte, dispatch on the four
`StatementKind` values, fail on anything else. -/
def Statement.decode : DecM Statement :=
  decBind readByte fun x =>
    if x = StatementKind.toByte StatementKind.Candidate then
      decMap Statement.Candidate CandidateReceipt.decode
    else if x = StatementKind.toByte StatementKind.Valid then
      decMap Statement.Valid decodeH256
    else if x = StatementKind.toByte StatementKind.Invalid then
      decMap Statement.Invalid decodeH256
    else if x = StatementKind.toByte StatementKind.Available then
      decMap Statement.Available decodeH256
    else decFail

/-- `struct Message(Vec<u8>)` — parachain ingress queue message. -/
structure Message where
  bytes : List Nat
deriving DecidableEq

/-- A `Message` is well formed when its length fits in a u32. -/
def Message.WF (m : Message) : Prop := m.bytes.length < 4294967296

instance : DecidablePred Message.WF := fun m => by unfold Message.WF; infer_instance

/-- Modelled from the spec: `Message` is an opaque byte sequence with the
byte-sequence wire layout (no `Slicable` impl appears in src/). -/
def Message.encode (m : Message) : List Nat := encodeBytes m.bytes

/-- Modelled from the spec: `Message` decodes as a byte sequence, then
wraps. -/
def Message.decode : DecM Message := decMap Message.mk decodeBytes

/-- `struct ConsolidatedIngress(Vec<(Id, Vec<Message>)>)`. -/
structure ConsolidatedIngress where
  queues : List (Id × List Message)
deriving DecidableEq

/-- A `ConsolidatedIngress` is well formed when all nested lengths are
u32-sized and all ids and messages are well formed. -/
def ConsolidatedIngress.WF (c : ConsolidatedIngress) : Prop :=
  c.queues.length < 4294967296 ∧
  ∀ p ∈ c.queues, p.1.WF ∧ p.2.length < 4294967296 ∧ ∀ m ∈ p.2, m.WF

instance : DecidablePred ConsolidatedIngress.WF := fun c => by
  unfold ConsolidatedIngress.WF; infer_instance

/-- Modelled from the spec: `ConsolidatedIngress` is an ordered sequence
of pairs `(Id, sequence of Message)` with the generic sequence layout
(no `Slicable` impl appears in src/). -/
def ConsolidatedIngress.encode (c : ConsolidatedIngress) : List Nat :=
  encodeVec (encodePair Id.encode (encodeVec Message.encode)) c.queues

/-- Modelled from the spec: `ConsolidatedIngress` decodes as the matching
sequence of pairs, then wraps. -/
def ConsolidatedIngress.decode : DecM ConsolidatedIngress :=
  decMap ConsolidatedIngress.mk
    (decodeVec (decodePair Id.decode (decodeVec Message.decode)))

/-- `struct Activity(Vec<u8>)` — activity bit field. -/
structure Activity where
  bytes : List Nat
deriving DecidableEq

/-- An `Activity` is well formed when its length fits in a u32. -/
def Activity.WF (a : Activity) : Prop := a.bytes.length < 4294967296

instance : DecidablePred Activity.WF := fun a => by unfold Activity.WF; infer_instance

/-- `Slicable for Activity`: `using_encoded` defers to the inner
`Vec<u8>`. -/
def Activity.encode (a : Activity) : List Nat := encodeBytes a.bytes

/-- `Slicable for Activity`: `Vec::<u8>::decode(input).map(Activity)`. -/
def Activity.decode : DecM Activity := decMap Activity.mk decodeBytes

/-- `struct Log(Vec<u8>)` — a log entry in the block. -/
structure Log where
  bytes : List Nat
deriving DecidableEq

/-- A `Log` is well formed when its length fits in a u32. -/
def Log.WF (l : Log) : Prop := l.bytes.length < 4294967296

instance : DecidablePred Log.WF := fun l => by unfold Log.WF; infer_instance

/-- `Slicable for Log`: `using_encoded` defers to the inner `Vec<u8>`. -/
def Log.encode (l : Log) : List Nat := encodeBytes l.bytes

/-- `Slicable for Log`: `Vec::<u8>::decode(input).map(Log)`. -/
def Log.decode : DecM Log := decMap Log.mk decodeBytes

/-- `struct BlockData(Vec<u8>)` — parachain block data. -/
structure BlockData where
  bytes : List Nat
deriving DecidableEq

/-- A `BlockData` is well formed when its length fits in a u32. -/
def BlockData.WF (b : BlockData) : Prop := b.bytes.length < 4294967296

instance : DecidablePred BlockData.WF := fun b => by unfold BlockData.WF; infer_instance

/-- Modelled from the spec: `BlockData` is an opaque byte wrapper with
the byte-sequence wire layout (no `Slicable` impl appears in src/). -/
def BlockData.encode (b : BlockData) : List Nat := encodeBytes b.bytes

/-- Modelled from the spec: `BlockData` decodes as a byte sequence, then
wraps. -/
def BlockData.decode : DecM BlockData := decMap BlockData.mk decodeBytes

/-- `struct ValidationCode(Vec<u8>)` — parachain validation code. -/
structure ValidationCode where
  bytes : List Nat
deriving DecidableEq

/-- A `ValidationCode` is well formed when its length fits in a u32. -/
def ValidationCode.WF (v : ValidationCode) : Prop := v.bytes.length < 4294967296

instance : DecidablePred ValidationCode.WF := fun v => by
  unfold ValidationCode.WF; infer_instance

/-- Modelled from the spec: `ValidationCode` is an opaque byte wrapper
with the byte-sequence wire layout (no `Slicable` impl appears in
src/). -/
def ValidationCode.encode (v : ValidationCode) : List Nat := encodeBytes v.bytes

/-- Modelled from the spec: `ValidationCode` decodes as a byte sequence,
then wraps. -/
def ValidationCode.decode : DecM ValidationCode := decMap ValidationCode.mk decodeBytes

/-!  Round-trip ("decode consumes exactly the encoding") and
monotonicity ("a successful decode only looks at the bytes it
consumes") properties of the decoders. -/

/-- `DecRT m e a`: on input `e` followed by anything, the decoder `m`
succeeds with value `a`, consuming exactly `e`. -/
def DecRT {α : Type} (m : DecM α) (e : List Nat) (a : α) : Prop :=
  ∀ rest, m (e ++ rest) = (some a, rest)

/-- `DecMono m`: a successful decode is unaffected by extra bytes
appended to the input; they show up untouched in the leftover. -/
def DecMono {α : Type} (m : DecM α) : Prop :=
  ∀ l w r s, m l = (some w, r) → m (l ++ s) = (some w, r ++ s)

theorem decPure_RT {α : Type} (a : α) : DecRT (decPure a) [] a := by
  intro rest
  rfl

/-- Step a `decBind` over the exact encoding of its first component. -/
theorem decBind_step {α β : Type} {m : DecM α} {f : α → DecM β}
    {e : List Nat} {a : α} (h : DecRT m e a) (tail : List Nat) :
    decBind m f (e ++ tail) = f a tail := by
  unfold decBind
  rw [h tail]

/-- Step a `decMap` over the exact encoding of its argument decoder. -/
theorem decMap_step {α β : Type} {m : DecM α} {f : α → β}
    {e : List Nat} {a : α} (h : DecRT m e a) (tail : List Nat) :
    decMap f m (e ++ tail) = (some (f a), tail) := by
  unfold decMap
  rw [h tail]

/-- Step a `decBind readByte` over the leading byte of the input. -/
theorem readByte_step {β : Type} {f : Nat → DecM β} (b : Nat) (tail : List Nat) :
    decBind readByte f (b :: tail) = f b tail := by
  rfl

theorem decMap_RT {α β : Type} {m : DecM α} (f : α → β) {e : List Nat} {a : α}
    (h : DecRT m e a) : DecRT (decMap f m) e (f a) := by
  intro rest
  unfold decMap
  rw [h rest]

theorem readByte_RT (b : Nat) : DecRT readByte [b] b := by
  intro rest
  rfl

theorem readBytes_RT {n : Nat} {l : List Nat} (h : l.length = n) :
    DecRT (readBytes n) l l := by
  intro rest
  unfold readBytes
  rw [if_pos]
  · rw [List.take_append_of_le_length (by omega), List.drop_append_of_le_length (by omega)]
    rw [← h, List.take_length, List.drop_length, List.nil_append]
  · rw [List.length_append]
    omega

theorem fromLE_encodeU32 {x : Nat} (h : x < 4294967296) :
    fromLE (encodeU32 x) = x := by
  simp only [fromLE, encodeU32, List.foldr]
  omega

theorem encodeU32_length (x : Nat) : (encodeU32 x).length = 4 := by
  rfl

theorem decodeU32_RT {x : Nat} (h : x < 4294967296) :
    DecRT decodeU32 (encodeU32 x) x := by
  have h1 : DecRT (readBytes 4) (encodeU32 x) (encodeU32 x) :=
    readBytes_RT (encodeU32_length x)
  have h2 := decMap_RT fromLE h1
  rwa [fromLE_encodeU32 h] at h2

theorem fromLE_encodeU64 {x : Nat} (h : x < 18446744073709551616) :
    fromLE (encodeU64 x) = x := by
  simp only [fromLE, encodeU64, List.foldr]
  omega

theorem encodeU64_length (x : Nat) : (encodeU64 x).length = 8 := by
  rfl

theorem decodeU64_RT {x : Nat} (h : x < 18446744073709551616) :
    DecRT decodeU64 (encodeU64 x) x := by
  have h1 : DecRT (readBytes 8) (encodeU64 x) (encodeU64 x) :=
    readBytes_RT (encodeU64_length x)
  have h2 := decMap_RT fromLE h1
  rwa [fromLE_encodeU64 h] at h2

theorem decodeBytes_RT {b : List Nat} (h : b.length < 4294967296) :
    DecRT decodeBytes (encodeBytes b) b := by
  intro rest
  unfold decodeBytes encodeBytes
  rw [List.append_assoc, decBind_step (decodeU32_RT h)]
  exact readBytes_RT rfl rest

theorem decodeH256_RT {h : H256} (hw : h.WF) :
    DecRT decodeH256 (encodeH256 h) h := by
  have h1 := decMap_RT H256.mk (readBytes_RT hw)
  exact h1

theorem decodeN_RT {α : Type} {decT : DecM α} {encT : α → List Nat}
    {xs : List α} (h : ∀ a ∈ xs, DecRT decT (encT a) a) :
    DecRT (decodeN decT xs.length) ((xs.map encT).flatten) xs := by
  induction xs with
  | nil =>
    intro rest
    rfl
  | cons x xs ih =>
    have hx : DecRT decT (encT x) x := h x (List.mem_cons_self x xs)
    have hxs := ih (fun a ha => h a (List.mem_cons_of_mem x ha))
    intro rest
    simp only [List.map_cons, List.flatten_cons, List.length_cons, List.append_assoc]
    simp only [decodeN, decBind_step hx, decMap_step hxs]

theorem decodeVec_RT {α : Type} {decT : DecM α} {encT : α → List Nat}
    {xs : List α} (hlen : xs.length < 4294967296)
    (h : ∀ a ∈ xs, DecRT decT (encT a) a) :
    DecRT (decodeVec decT) (encodeVec encT xs) xs := by
  intro rest
  unfold decodeVec encodeVec
  rw [List.append_assoc, decBind_step (decodeU32_RT hlen)]
  exact decodeN_RT h rest

theorem decodePair_RT {α β : Type} {decA : DecM α} {decB : DecM β}
    {encA : α → List Nat} {encB : β → List Nat} {p : α × β}
    (ha : DecRT decA (encA p.1) p.1) (hb : DecRT decB (encB p.2) p.2) :
    DecRT (decodePair decA decB) (encodePair encA encB p) p := by
  intro rest
  unfold decodePair encodePair
  rw [List.append_assoc, decBind_step ha, decMap_step hb]

theorem id_decode_RT {i : Id} (h : i.WF) : DecRT Id.decode (Id.encode i) i := by
  have h1 := decMap_RT Id.mk (decodeU32_RT h)
  exact h1

theorem chain_decode_RT {c : Chain} (h : c.WF) :
    DecRT Chain.decode (Chain.encode c) c := by
  cases c with
  | Relay =>
    intro rest
    rfl
  | Parachain i =>
    intro rest
    show Chain.decode ((1 :: Id.encode i) ++ rest) = (some (Chain.Parachain i), rest)
    unfold Chain.decode
    rw [List.cons_append, readByte_step]
    exact decMap_RT Chain.Parachain (id_decode_RT h) rest

theorem dutyRoster_decode_RT {d : DutyRoster} (h : d.WF) :
    DecRT DutyRoster.decode (DutyRoster.encode d) d := by
  obtain ⟨h1, h2, h3, h4⟩ := h
  have hv : DecRT (decodeVec Chain.decode) (encodeVec Chain.encode d.validator_duty)
      d.validator_duty := decodeVec_RT h1 (fun c hc => chain_decode_RT (h2 c hc))
  have hg : DecRT (decodeVec Chain.decode) (encodeVec Chain.encode d.guarantor_duty)
      d.guarantor_duty := decodeVec_RT h3 (fun c hc => chain_decode_RT (h4 c hc))
  intro rest
  unfold DutyRoster.decode DutyRoster.encode
  simp only [List.append_assoc, decBind_step hv, decBind_step hg]
  rfl

theorem candidateReceipt_decode_RT {r : CandidateReceipt} (h : r.WF) :
    DecRT CandidateReceipt.decode (CandidateReceipt.encode r) r := by
  obtain ⟨hpi, hcol, hhd, hbl, hbu, hel, heg, hf⟩ := h
  have h1 := id_decode_RT hpi
  have h2 := decodeH256_RT hcol
  have h3 : DecRT (decMap HeadData.mk decodeBytes) (encodeBytes r.head_data.bytes)
      r.head_data := decMap_RT HeadData.mk (decodeBytes_RT hhd)
  have h4 : DecRT (decodeVec (decodePair decodeH256 decodeU64))
      (encodeVec (encodePair encodeH256 encodeU64) r.balance_uploads)
      r.balance_uploads :=
    decodeVec_RT hbl
      (fun p hp => decodePair_RT (decodeH256_RT (hbu p hp).1) (decodeU64_RT (hbu p hp).2))
  have h5 : DecRT (decodeVec (decodePair Id.decode decodeH256))
      (encodeVec (encodePair Id.encode encodeH256) r.egress_queue_roots)
      r.egress_queue_roots :=
    decodeVec_RT hel
      (fun p hp => decodePair_RT (id_decode_RT (heg p hp).1) (decodeH256_RT (heg p hp).2))
  have h6 := decodeU64_RT hf
  intro rest
  unfold CandidateReceipt.decode CandidateReceipt.encode
  simp only [List.append_assoc, decBind_step h1, decBind_step h2, decBind_step h3,
    decBind_step h4, decBind_step h5, decBind_step h6]
  rfl

theorem statement_decode_RT {s : Statement} (h : s.WF) :
    DecRT Statement.decode (Statement.encode s) s := by
  cases s with
  | Candidate r =>
    intro rest
    show Statement.decode ((1 :: CandidateReceipt.encode r) ++ rest) =
      (some (Statement.Candidate r), rest)
    unfold Statement.decode
    rw [List.cons_append, readByte_step]
    simp only [StatementKind.toByte, if_pos rfl]
    exact decMap_RT Statement.Candidate (candidateReceipt_decode_RT h) rest
  | Valid hh =>
    intro rest
    show Statement.decode ((2 :: encodeH256 hh) ++ rest) = (some (Statement.Valid hh), rest)
    unfold Statement.decode
    rw [List.cons_append, readByte_step]
    norm_num [StatementKind.toByte]
    exact decMap_RT Statement.Valid (decodeH256_RT h) rest
  | Invalid hh =>
    intro rest
    show Statement.decode ((3 :: encodeH256 hh) ++ rest) = (some (Statement.Invalid hh), rest)
    unfold Statement.decode
    rw [List.cons_append, readByte_step]
    norm_num [StatementKind.toByte]
    exact decMap_RT Statement.Invalid (decodeH256_RT h) rest
  | Available hh =>
    intro rest
    show Statement.decode ((4 :: encodeH256 hh) ++ rest) =
      (some (Statement.Available hh), rest)
    unfold Statement.decode
    rw [List.cons_append, readByte_step]
    norm_num [StatementKind.toByte]
    exact decMap_RT Statement.Available (decodeH256_RT h) rest

theorem message_decode_RT {m : Message} (h : m.WF) :
    DecRT Message.decode (Message.encode m) m := by
  have h1 := decMap_RT Message.mk (decodeBytes_RT h)
  exact h1

theorem consolidatedIngress_decode_RT {c : ConsolidatedIngress} (h : c.WF) :
    DecRT ConsolidatedIngress.decode (ConsolidatedIngress.encode c) c := by
  obtain ⟨hlen, hq⟩ := h
  have hv : DecRT (decodeVec (decodePair Id.decode (decodeVec Message.decode)))
      (encodeVec (encodePair Id.encode (encodeVec Message.encode)) c.queues)
      c.queues :=
    decodeVec_RT hlen
      (fun p hp => decodePair_RT (id_decode_RT (hq p hp).1)
        (decodeVec_RT (hq p hp).2.1 (fun m hm => message_decode_RT ((hq p hp).2.2 m hm))))
  have h1 := decMap_RT ConsolidatedIngress.mk hv
  exact h1

theorem headData_decode_RT {h : HeadData} (hw : h.WF) :
    DecRT HeadData.decode (HeadData.encode h) h := by
  have h1 := decMap_RT HeadData.mk (decodeBytes_RT hw)
  exact h1

theorem activity_decode_RT {a : Activity} (h : a.WF) :
    DecRT Activity.decode (Activity.encode a) a := by
  have h1 := decMap_RT Activity.mk (decodeBytes_RT h)
  exact h1

theorem log_decode_RT {l : Log} (h : l.WF) :
    DecRT Log.decode (Log.encode l) l := by
  have h1 := decMap_RT Log.mk (decodeBytes_RT h)
  exact h1

theorem blockData_decode_RT {b : BlockData} (h : b.WF) :
    DecRT BlockData.decode (BlockData.encode b) b := by
  have h1 := decMap_RT BlockData.mk (decodeBytes_RT h)
  exact h1

theorem validationCode_decode_RT {v : ValidationCode} (h : v.WF) :
    DecRT ValidationCode.decode (ValidationCode.encode v) v := by
  have h1 := decMap_RT ValidationCode.mk (decodeBytes_RT h)
  exact h1

/-- Specialize a `DecRT` fact to the bare encoding: the decoder consumes
all of it and leaves nothing. -/
theorem DecRT.nil {α : Type} {m : DecM α} {e : List Nat} {a : α}
    (h : DecRT m e a) : m e = (some a, []) := by
  have h1 := h []
  rwa [List.append_nil] at h1

theorem decPure_mono {α : Type} (a : α) : DecMono (decPure a) := by
  intro l w r s h
  simp only [decPure, Prod.mk.injEq, Option.some.injEq] at h
  obtain ⟨rfl, rfl⟩ := h
  rfl

theorem decFail_mono {α : Type} : DecMono (decFail : DecM α) := by
  intro l w r s h
  simp [decFail] at h

theorem decBind_mono {α β : Type} {m : DecM α} {f : α → DecM β}
    (hm : DecMono m) (hf : ∀ a, DecMono (f a)) : DecMono (decBind m f) := by
  intro l w r s h
  unfold decBind at h ⊢
  rcases hml : m l with ⟨o, rest⟩
  cases o with
  | none =>
    rw [hml] at h
    simp at h
  | some a =>
    rw [hml] at h
    rw [hm l a rest s hml]
    exact hf a rest w r s h

theorem decMap_mono {α β : Type} {m : DecM α} {f : α → β}
    (hm : DecMono m) : DecMono (decMap f m) := by
  intro l w r s h
  unfold decMap at h ⊢
  rcases hml : m l with ⟨o, rest⟩
  cases o with
  | none =>
    rw [hml] at h
    simp at h
  | some a =>
    rw [hml] at h
    rw [hm l a rest s hml]
    simp only [Prod.mk.injEq, Option.some.injEq] at h ⊢
    obtain ⟨rfl, rfl⟩ := h
    exact ⟨rfl, rfl⟩

theorem readByte_mono : DecMono readByte := by
  intro l w r s h
  cases l with
  | nil => simp [readByte] at h
  | cons b t =>
    simp only [readByte, Prod.mk.injEq, Option.some.injEq] at h
    obtain ⟨rfl, rfl⟩ := h
    rfl

theorem readBytes_mono (n : Nat) : DecMono (readBytes n) := by
  intro l w r s h
  unfold readBytes at h ⊢
  by_cases hn : n ≤ l.length
  · rw [if_pos hn] at h
    simp only [Prod.mk.injEq, Option.some.injEq] at h
    obtain ⟨rfl, rfl⟩ := h
    rw [if_pos (by rw [List.length_append]; omega)]
    rw [List.take_append_of_le_length hn, List.drop_append_of_le_length hn]
  · rw [if_neg hn] at h
    simp at h

theorem decodeU32_mono : DecMono decodeU32 := decMap_mono (readBytes_mono 4)

theorem decodeU64_mono : DecMono decodeU64 := decMap_mono (readBytes_mono 8)

theorem decodeBytes_mono : DecMono decodeBytes :=
  decBind_mono decodeU32_mono (fun n => readBytes_mono n)

theorem decodeH256_mono : DecMono decodeH256 := decMap_mono (readBytes_mono 32)

theorem decodeN_mono {α : Type} {decT : DecM α} (hT : DecMono decT) :
    ∀ n, DecMono (decodeN decT n) := by
  intro n
  induction n with
  | zero => exact decPure_mono []
  | succ k ih =>
    show DecMono (decBind decT fun x => decMap (fun xs => x :: xs) (decodeN decT k))
    exact decBind_mono hT (fun x => decMap_mono ih)

theorem decodeVec_mono {α : Type} {decT : DecM α} (hT : DecMono decT) :
    DecMono (decodeVec decT) := by
  unfold decodeVec
  exact decBind_mono decodeU32_mono (fun n => decodeN_mono hT n)

theorem decodePair_mono {α β : Type} {decA : DecM α} {decB : DecM β}
    (ha : DecMono decA) (hb : DecMono decB) : DecMono (decodePair decA decB) := by
  unfold decodePair
  exact decBind_mono ha (fun a => decMap_mono hb)

theorem id_decode_mono : DecMono Id.decode := decMap_mono decodeU32_mono

theorem chain_decode_mono : DecMono Chain.decode := by
  unfold Chain.decode
  refine decBind_mono readByte_mono (fun disc => ?_)
  rcases disc with _ | _ | n
  · exact decPure_mono Chain.Relay
  · exact decMap_mono id_decode_mono
  · exact decFail_mono

theorem dutyRoster_decode_mono : DecMono DutyRoster.decode := by
  unfold DutyRoster.decode
  exact decBind_mono (decodeVec_mono chain_decode_mono) (fun v =>
    decBind_mono (decodeVec_mono chain_decode_mono) (fun g =>
    decPure_mono (DutyRoster.mk v g)))

theorem candidateReceipt_decode_mono : DecMono CandidateReceipt.decode := by
  unfold CandidateReceipt.decode
  exact decBind_mono id_decode_mono (fun pi =>
    decBind_mono decodeH256_mono (fun col =>
    decBind_mono (decMap_mono decodeBytes_mono) (fun hd =>
    decBind_mono (decodeVec_mono (decodePair_mono decodeH256_mono decodeU64_mono)) (fun bu =>
    decBind_mono (decodeVec_mono (decodePair_mono id_decode_mono decodeH256_mono)) (fun eg =>
    decBind_mono decodeU64_mono (fun fees =>
    decPure_mono (CandidateReceipt.mk pi col hd bu eg fees)))))))

theorem statement_decode_mono : DecMono Statement.decode := by
  unfold Statement.decode
  refine decBind_mono readByte_mono (fun x => ?_)
  split
  · exact decMap_mono candidateReceipt_decode_mono
  · split
    · exact decMap_mono decodeH256_mono
    · split
      · exact decMap_mono decodeH256_mono
      · split
        · exact decMap_mono decodeH256_mono
        · exact decFail_mono

theorem message_decode_mono : DecMono Message.decode := decMap_mono decodeBytes_mono

theorem consolidatedIngress_decode_mono : DecMono ConsolidatedIngress.decode := by
  unfold ConsolidatedIngress.decode
  exact decMap_mono (decodeVec_mono (decodePair_mono id_decode_mono
    (decodeVec_mono message_decode_mono)))

theorem headData_decode_mono : DecMono HeadData.decode := decMap_mono decodeBytes_mono

theorem activity_decode_mono : DecMono Activity.decode := decMap_mono decodeBytes_mono

theorem log_decode_mono : DecMono Log.decode := decMap_mono decodeBytes_mono

theorem blockData_decode_mono : DecMono BlockData.decode := decMap_mono decodeBytes_mono

theorem validationCode_decode_mono : DecMono ValidationCode.decode :=
  decMap_mono decodeBytes_mono

/-- A decoder that consumes exactly its encodings and never reads past
what it consumes cannot succeed on a strict prefix of an encoding. -/
theorem decode_take_none {α : Type} {m : DecM α} {e : List Nat} {a : α}
    (hrt : DecRT m e a) (hm : DecMono m) {n : Nat} (hn : n < e.length) :
    (m (e.take n)).1 = none := by
  rcases hd : m (e.take n) with ⟨o, r⟩
  cases o with
  | none => rfl
  | some w =>
    exfalso
    have h2 := hm _ w r (e.drop n) hd
    rw [List.take_append_drop] at h2
    have h3 := hrt []
    rw [List.append_nil] at h3
    rw [h3] at h2
    simp only [Prod.mk.injEq, Option.some.injEq] at h2
    have h4 := congrArg List.length h2.2
    simp only [List.length_nil, List.length_append, List.length_drop] at h4
    omega

/-- `Chain::decode` on an unrecognized discriminant byte: failure, with
exactly the discriminant byte consumed. -/
theorem chain_decode_unknown (b : Nat) (rest : List Nat)
    (h0 : b ≠ 0) (h1 : b ≠ 1) : Chain.decode (b :: rest) = (none, rest) := by
  rcases b with _ | _ | n
  · exact absurd rfl h0
  · exact absurd rfl h1
  · rfl

/-- `Statement::decode` on an unrecognized discriminant byte: failure,
with exactly the discriminant byte consumed. -/
theorem statement_decode_unknown (b : Nat) (rest : List Nat)
    (h1 : b ≠ 1) (h2 : b ≠ 2) (h3 : b ≠ 3) (h4 : b ≠ 4) :
    Statement.decode (b :: rest) = (none, rest) := by
  unfold Statement.decode
  rw [readByte_step]
  simp only [StatementKind.toByte]
  rw [if_neg h1, if_neg h2, if_neg h3, if_neg h4]
  rfl

theorem compareNat_self (a : Nat) : compareNat a a = Ordering.eq := by
  unfold compareNat
  rw [if_neg (lt_irrefl a), if_neg (lt_irrefl a)]

theorem compareBytes_self (l : List Nat) : compareBytes l l = Ordering.eq := by
  induction l with
  | nil => rfl
  | cons a t ih =>
    unfold compareBytes
    rw [compareNat_self, ih]
    rfl

/-- C1: for every in-scope domain type and every well-formed value `v`,
`decode (encode v)` succeeds and returns a value equal to `v` (consuming
the whole encoding). -/
theorem C1_round_trip :
    (∀ i : Id, i.WF → Id.decode (Id.encode i) = (some i, [])) ∧
    (∀ c : Chain, c.WF → Chain.decode (Chain.encode c) = (some c, [])) ∧
    (∀ d : DutyRoster, d.WF → DutyRoster.decode (DutyRoster.encode d) = (some d, [])) ∧
    (∀ r : CandidateReceipt, r.WF →
      CandidateReceipt.decode (CandidateReceipt.encode r) = (some r, [])) ∧
    (∀ s : Statement, s.WF → Statement.decode (Statement.encode s) = (some s, [])) ∧
    (∀ m : Message, m.WF → Message.decode (Message.encode m) = (some m, [])) ∧
    (∀ c : ConsolidatedIngress, c.WF →
      ConsolidatedIngress.decode (ConsolidatedIngress.encode c) = (some c, [])) ∧
    (∀ h : HeadData, h.WF → HeadData.decode (HeadData.encode h) = (some h, [])) ∧
    (∀ a : Activity, a.WF → Activity.decode (Activity.encode a) = (some a, [])) ∧
    (∀ l : Log, l.WF → Log.decode (Log.encode l) = (some l, [])) ∧
    (∀ b : BlockData, b.WF → BlockData.decode (BlockData.encode b) = (some b, [])) ∧
    (∀ v : ValidationCode, v.WF →
      ValidationCode.decode (ValidationCode.encode v) = (some v, [])) :=
  ⟨fun _ h => (id_decode_RT h).nil,
   fun _ h => (chain_decode_RT h).nil,
   fun _ h => (dutyRoster_decode_RT h).nil,
   fun _ h => (candidateReceipt_decode_RT h).nil,
   fun _ h => (statement_decode_RT h).nil,
   fun _ h => (message_decode_RT h).nil,
   fun _ h => (consolidatedIngress_decode_RT h).nil,
   fun _ h => (headData_decode_RT h).nil,
   fun _ h => (activity_decode_RT h).nil,
   fun _ h => (log_decode_RT h).nil,
   fun _ h => (blockData_decode_RT h).nil,
   fun _ h => (validationCode_decode_RT h).nil⟩

/-- C1 witness: the round trip evaluated at one concrete well-formed
value of each type. -/
theorem C1_round_trip_witness :
    Id.decode (Id.encode (Id.mk 7)) = (some (Id.mk 7), []) ∧
    Chain.decode (Chain.encode (Chain.Parachain (Id.mk 7))) =
      (some (Chain.Parachain (Id.mk 7)), []) ∧
    DutyRoster.decode (DutyRoster.encode (DutyRoster.mk [Chain.Relay] [])) =
      (some (DutyRoster.mk [Chain.Relay] []), []) ∧
    CandidateReceipt.decode (CandidateReceipt.encode
        (CandidateReceipt.mk (Id.mk 1) (H256.mk (List.replicate 32 0))
          (HeadData.mk [1, 2]) [] [] 3)) =
      (some (CandidateReceipt.mk (Id.mk 1) (H256.mk (List.replicate 32 0))
        (HeadData.mk [1, 2]) [] [] 3), []) ∧
    Statement.decode (Statement.encode (Statement.Valid (H256.mk (List.replicate 32 5)))) =
      (some (Statement.Valid (H256.mk (List.replicate 32 5))), []) ∧
    Message.decode (Message.encode (Message.mk [1])) = (some (Message.mk [1]), []) ∧
    ConsolidatedIngress.decode (ConsolidatedIngress.encode
        (ConsolidatedIngress.mk [(Id.mk 1, [Message.mk [2]])])) =
      (some (ConsolidatedIngress.mk [(Id.mk 1, [Message.mk [2]])]), []) ∧
    HeadData.decode (HeadData.encode (HeadData.mk [1])) = (some (HeadData.mk [1]), []) ∧
    Activity.decode (Activity.encode (Activity.mk [1])) = (some (Activity.mk [1]), []) ∧
    Log.decode (Log.encode (Log.mk [])) = (some (Log.mk []), []) ∧
    BlockData.decode (BlockData.encode (BlockData.mk [9])) = (some (BlockData.mk [9]), []) ∧
    ValidationCode.decode (ValidationCode.encode (ValidationCode.mk [])) =
      (some (ValidationCode.mk []), []) :=
  ⟨C1_round_trip.1 _ (by decide),
   C1_round_trip.2.1 _ (by decide),
   C1_round_trip.2.2.1 _ (by decide),
   C1_round_trip.2.2.2.1 _ (by decide),
   C1_round_trip.2.2.2.2.1 _ (by decide),
   C1_round_trip.2.2.2.2.2.1 _ (by decide),
   C1_round_trip.2.2.2.2.2.2.1 _ (by decide),
   C1_round_trip.2.2.2.2.2.2.2.1 _ (by decide),
   C1_round_trip.2.2.2.2.2.2.2.2.1 _ (by decide),
   C1_round_trip.2.2.2.2.2.2.2.2.2.1 _ (by decide),
   C1_round_trip.2.2.2.2.2.2.2.2.2.2.1 _ (by decide),
   C1_round_trip.2.2.2.2.2.2.2.2.2.2.2 _ (by decide)⟩

/-- C2: decoding a `Chain` whose first byte is not 0 or 1, or a
`Statement` whose first byte is not 1..4, fails and never yields a
fallback variant; in particular `Chain` byte 2 and `Statement` byte 0
fail. -/
theorem C2_unrecognized_discriminant_fails :
    (∀ b rest, b ≠ 0 → b ≠ 1 → (Chain.decode (b :: rest)).1 = none) ∧
    (∀ b rest, b ≠ 1 → b ≠ 2 → b ≠ 3 → b ≠ 4 → (Statement.decode (b :: rest)).1 = none) ∧
    (Chain.decode [2]).1 = none ∧
    (Statement.decode (0 :: List.replicate 32 0)).1 = none := by
  refine ⟨?_, ?_, ?_, ?_⟩
  · intro b rest h0 h1
    rw [chain_decode_unknown b rest h0 h1]
  · intro b rest h1 h2 h3 h4
    rw [statement_decode_unknown b rest h1 h2 h3 h4]
  · rw [chain_decode_unknown 2 [] (by decide) (by decide)]
  · rw [statement_decode_unknown 0 (List.replicate 32 0)
      (by decide) (by decide) (by decide) (by decide)]

/-- C2 witness: the two universally quantified conjuncts evaluated at
byte 2 for `Chain` and byte 0 for `Statement`. -/
theorem C2_unrecognized_discriminant_fails_witness :
    (Chain.decode (2 :: [9])).1 = none ∧ (Statement.decode (0 :: [9])).1 = none :=
  ⟨C2_unrecognized_discriminant_fails.1 2 [9] (by decide) (by decide),
   C2_unrecognized_discriminant_fails.2.1 0 [9] (by decide) (by decide) (by decide)
     (by decide)⟩

/-- C3: the `CandidateReceipt` order compares by `parachain_index` and
then `head_data` only: equal keys compare equal whatever the other
fields hold, and a smaller `parachain_index` dominates `head_data`. -/
theorem C3_receipt_order_key :
    (∀ a b : CandidateReceipt, a.parachain_index = b.parachain_index →
      a.head_data = b.head_data → CandidateReceipt.cmp a b = Ordering.eq) ∧
    (∀ a b : CandidateReceipt, a.parachain_index.val < b.parachain_index.val →
      CandidateReceipt.cmp a b = Ordering.lt) := by
  constructor
  · intro a b h1 h2
    unfold CandidateReceipt.cmp Id.cmp HeadData.cmp
    rw [h1, h2, compareNat_self, compareBytes_self]
    rfl
  · intro a b h
    unfold CandidateReceipt.cmp Id.cmp compareNat
    rw [if_pos h]
    rfl

/-- C3 witness: receipts with equal key but different collator and fees
compare equal; a smaller `parachain_index` wins against larger
`head_data`. -/
theorem C3_receipt_order_key_witness :
    CandidateReceipt.cmp
      (CandidateReceipt.mk (Id.mk 1) (H256.mk [1]) (HeadData.mk [5]) [] [] 0)
      (CandidateReceipt.mk (Id.mk 1) (H256.mk [2]) (HeadData.mk [5]) [] [] 99) =
      Ordering.eq ∧
    CandidateReceipt.cmp
      (CandidateReceipt.mk (Id.mk 1) (H256.mk []) (HeadData.mk [9]) [] [] 0)
      (CandidateReceipt.mk (Id.mk 2) (H256.mk []) (HeadData.mk [0]) [] [] 0) =
      Ordering.lt :=
  ⟨C3_receipt_order_key.1 _ _ rfl rfl, C3_receipt_order_key.2 _ _ (by decide)⟩

/-- C4: `CandidateReceipt` encodes as the exact concatenation of its six
fields in declaration order (4-byte id, 32-byte account, length-prefixed
head bytes, two length-prefixed sequences, 8-byte fees) with no padding
or overall length prefix, and decode fails at the first failing field
without attempting the rest. -/
theorem C4_receipt_field_layout :
    (∀ r : CandidateReceipt, CandidateReceipt.encode r =
      Id.encode r.parachain_index ++ encodeH256 r.collator ++
      encodeBytes r.head_data.bytes ++
      encodeVec (encodePair encodeH256 encodeU64) r.balance_uploads ++
      encodeVec (encodePair Id.encode encodeH256) r.egress_queue_roots ++
      encodeU64 r.fees) ∧
    (∀ i : Id, (Id.encode i).length = 4) ∧
    (∀ h : H256, h.WF → (encodeH256 h).length = 32) ∧
    (∀ x : Nat, (encodeU64 x).length = 8) ∧
    (∀ b : List Nat, encodeBytes b = encodeU32 b.length ++ b) ∧
    (∀ input, (Id.decode input).1 = none →
      CandidateReceipt.decode input = (none, (Id.decode input).2)) ∧
    (∀ input i rest, Id.decode input = (some i, rest) → (decodeH256 rest).1 = none →
      CandidateReceipt.decode input = (none, (decodeH256 rest).2)) ∧
    (∀ input i r1 c r2, Id.decode input = (some i, r1) →
      decodeH256 r1 = (some c, r2) → (decodeBytes r2).1 = none →
      CandidateReceipt.decode input = (none, (decodeBytes r2).2)) ∧
    (∀ input i r1 c r2 hd r3, Id.decode input = (some i, r1) →
      decodeH256 r1 = (some c, r2) → decodeBytes r2 = (some hd, r3) →
      (decodeVec (decodePair decodeH256 decodeU64) r3).1 = none →
      CandidateReceipt.decode input =
        (none, (decodeVec (decodePair decodeH256 decodeU64) r3).2)) ∧
    (∀ input i r1 c r2 hd r3 bu r4, Id.decode input = (some i, r1) →
      decodeH256 r1 = (some c, r2) → decodeBytes r2 = (some hd, r3) →
      decodeVec (decodePair decodeH256 decodeU64) r3 = (some bu, r4) →
      (decodeVec (decodePair Id.decode decodeH256) r4).1 = none →
      CandidateReceipt.decode input =
        (none, (decodeVec (decodePair Id.decode decodeH256) r4).2)) ∧
    (∀ input i r1 c r2 hd r3 bu r4 eg r5, Id.decode input = (some i, r1) →
      decodeH256 r1 = (some c, r2) → decodeBytes r2 = (some hd, r3) →
      decodeVec (decodePair decodeH256 decodeU64) r3 = (some bu, r4) →
      decodeVec (decodePair Id.decode decodeH256) r4 = (some eg, r5) →
      (decodeU64 r5).1 = none →
      CandidateReceipt.decode input = (none, (decodeU64 r5).2)) := by
  refine ⟨fun r => rfl, fun i => rfl, fun h hw => hw, fun x => rfl, fun b => rfl,
    ?_, ?_, ?_, ?_, ?_, ?_⟩
  · intro input h
    unfold CandidateReceipt.decode decBind
    rcases hd : Id.decode input with ⟨o, rest⟩
    rw [hd] at h
    cases o with
    | none => rfl
    | some i => simp at h
  · intro input i rest h1 h2
    unfold CandidateReceipt.decode decBind
    simp only [h1]
    rcases hd : decodeH256 rest with ⟨o, rest2⟩
    rw [hd] at h2
    cases o with
    | none => rfl
    | some c => simp at h2
  · intro input i r1 c r2 h1 h2 h3
    unfold CandidateReceipt.decode decBind decMap
    simp only [h1, h2]
    rcases hd : decodeBytes r2 with ⟨o, rest⟩
    rw [hd] at h3
    cases o with
    | none => rfl
    | some w => simp at h3
  · intro input i r1 c r2 hd3 r3 h1 h2 h3 h4
    unfold CandidateReceipt.decode decBind decMap
    simp only [h1, h2, h3]
    rcases hd : decodeVec (decodePair decodeH256 decodeU64) r3 with ⟨o, rest⟩
    rw [hd] at h4
    cases o with
    | none => rfl
    | some w => simp at h4
  · intro input i r1 c r2 hd3 r3 bu r4 h1 h2 h3 h4 h5
    unfold CandidateReceipt.decode decBind decMap
    simp only [h1, h2, h3, h4]
    rcases hd : decodeVec (decodePair Id.decode decodeH256) r4 with ⟨o, rest⟩
    rw [hd] at h5
    cases o with
    | none => rfl
    | some w => simp at h5
  · intro input i r1 c r2 hd3 r3 bu r4 eg r5 h1 h2 h3 h4 h5 h6
    unfold CandidateReceipt.decode decBind decMap
    simp only [h1, h2, h3, h4, h5]
    rcases hd : decodeU64 r5 with ⟨o, rest⟩
    rw [hd] at h6
    cases o with
    | none => rfl
    | some w => simp at h6

/-- C4 witness: the length facts and the short-circuit at each of the
six fields, evaluated at concrete truncated inputs. -/
theorem C4_receipt_field_layout_witness :
    (encodeH256 (H256.mk (List.replicate 32 0))).length = 32 ∧
    CandidateReceipt.decode [] = (none, (Id.decode []).2) ∧
    CandidateReceipt.decode (encodeU32 5) = (none, (decodeH256 []).2) ∧
    CandidateReceipt.decode (encodeU32 1 ++ List.replicate 32 0) =
      (none, (decodeBytes []).2) ∧
    CandidateReceipt.decode (encodeU32 1 ++ List.replicate 32 0 ++ [0, 0, 0, 0]) =
      (none, (decodeVec (decodePair decodeH256 decodeU64) []).2) ∧
    CandidateReceipt.decode
        (encodeU32 1 ++ List.replicate 32 0 ++ [0, 0, 0, 0] ++ [0, 0, 0, 0]) =
      (none, (decodeVec (decodePair Id.decode decodeH256) []).2) ∧
    CandidateReceipt.decode
        (encodeU32 1 ++ List.replicate 32 0 ++ [0, 0, 0, 0] ++ [0, 0, 0, 0] ++
          [0, 0, 0, 0]) =
      (none, (decodeU64 []).2) :=
  ⟨C4_receipt_field_layout.2.2.1 _ (by decide),
   C4_receipt_field_layout.2.2.2.2.2.1 [] (by decide),
   C4_receipt_field_layout.2.2.2.2.2.2.1 (encodeU32 5) (Id.mk 5) [] (by decide) (by decide),
   C4_receipt_field_layout.2.2.2.2.2.2.2.1 (encodeU32 1 ++ List.replicate 32 0)
     (Id.mk 1) (List.replicate 32 0) (H256.mk (List.replicate 32 0)) []
     (by decide) (by decide) (by decide),
   C4_receipt_field_layout.2.2.2.2.2.2.2.2.1
     (encodeU32 1 ++ List.replicate 32 0 ++ [0, 0, 0, 0])
     (Id.mk 1) (List.replicate 36 0) (H256.mk (List.replicate 32 0))
     (List.replicate 4 0) [] []
     (by decide) (by decide) (by decide) (by decide),
   C4_receipt_field_layout.2.2.2.2.2.2.2.2.2.1
     (encodeU32 1 ++ List.replicate 32 0 ++ [0, 0, 0, 0] ++ [0, 0, 0, 0])
     (Id.mk 1) (List.replicate 40 0) (H256.mk (List.replicate 32 0))
     (List.replicate 8 0) [] (List.replicate 4 0) [] []
     (by decide) (by decide) (by decide) (by decide) (by decide),
   C4_receipt_field_layout.2.2.2.2.2.2.2.2.2.2
     (encodeU32 1 ++ List.replicate 32 0 ++ [0, 0, 0, 0] ++ [0, 0, 0, 0] ++ [0, 0, 0, 0])
     (Id.mk 1) (List.replicate 44 0) (H256.mk (List.replicate 32 0))
     (List.replicate 12 0) [] (List.replicate 8 0) [] (List.replicate 4 0) [] []
     (by decide) (by decide) (by decide) (by decide) (by decide) (by decide)⟩

/-- C5: `Id` encodes as the 4 little-endian bytes of its u32,
`Chain::Relay` as the single byte 0, and `Chain::Parachain(id)` as byte
1 followed by the 4-byte id (5 bytes total). -/
theorem C5_id_chain_encoding :
    (∀ x : Nat, x < 4294967296 →
      Id.encode (Id.mk x) =
        [x % 256, x / 256 % 256, x / 65536 % 256, x / 16777216 % 256]) ∧
    Chain.encode Chain.Relay = [0] ∧
    (∀ i : Id, Chain.encode (Chain.Parachain i) = 1 :: Id.encode i ∧
      (Chain.encode (Chain.Parachain i)).length = 5) :=
  ⟨fun _ _ => rfl, rfl, fun _ => ⟨rfl, rfl⟩⟩

/-- C5 witness: the `Id` byte layout evaluated at 7. -/
theorem C5_id_chain_encoding_witness :
    Id.encode (Id.mk 7) = [7, 0, 0, 0] :=
  C5_id_chain_encoding.1 7 (by decide)

/-- C6: sequences encode as a length prefix followed by the element
encodings, and the concrete `DutyRoster` from the spec encodes exactly
as length-prefix(2), bytes 0, 1, 7 0 0 0, then length-prefix(0). -/
theorem C6_sequence_length_prefix :
    (∀ d : DutyRoster, DutyRoster.encode d =
      encodeVec Chain.encode d.validator_duty ++
      encodeVec Chain.encode d.guarantor_duty) ∧
    (∀ xs : List Chain, encodeVec Chain.encode xs =
      encodeU32 xs.length ++ (xs.map Chain.encode).flatten) ∧
    DutyRoster.encode (DutyRoster.mk [Chain.Relay, Chain.Parachain (Id.mk 7)] []) =
      encodeU32 2 ++ [0] ++ [1] ++ [7, 0, 0, 0] ++ encodeU32 0 :=
  ⟨fun _ => rfl, fun _ => rfl, by decide⟩

/-- C7: decoding any strict prefix of a well-formed value's encoding
fails, for every in-scope type. -/
theorem C7_strict_prefixes_fail :
    (∀ i : Id, i.WF → ∀ n, n < (Id.encode i).length →
      (Id.decode ((Id.encode i).take n)).1 = none) ∧
    (∀ c : Chain, c.WF → ∀ n, n < (Chain.encode c).length →
      (Chain.decode ((Chain.encode c).take n)).1 = none) ∧
    (∀ d : DutyRoster, d.WF → ∀ n, n < (DutyRoster.encode d).length →
      (DutyRoster.decode ((DutyRoster.encode d).take n)).1 = none) ∧
    (∀ r : CandidateReceipt, r.WF → ∀ n, n < (CandidateReceipt.encode r).length →
      (CandidateReceipt.decode ((CandidateReceipt.encode r).take n)).1 = none) ∧
    (∀ s : Statement, s.WF → ∀ n, n < (Statement.encode s).length →
      (Statement.decode ((Statement.encode s).take n)).1 = none) ∧
    (∀ m : Message, m.WF → ∀ n, n < (Message.encode m).length →
      (Message.decode ((Message.encode m).take n)).1 = none) ∧
    (∀ c : ConsolidatedIngress, c.WF → ∀ n, n < (ConsolidatedIngress.encode c).length →
      (ConsolidatedIngress.decode ((ConsolidatedIngress.encode c).take n)).1 = none) ∧
    (∀ h : HeadData, h.WF → ∀ n, n < (HeadData.encode h).length →
      (HeadData.decode ((HeadData.encode h).take n)).1 = none) ∧
    (∀ a : Activity, a.WF → ∀ n, n < (Activity.encode a).length →
      (Activity.decode ((Activity.encode a).take n)).1 = none) ∧
    (∀ l : Log, l.WF → ∀ n, n < (Log.encode l).length →
      (Log.decode ((Log.encode l).take n)).1 = none) ∧
    (∀ b : BlockData, b.WF → ∀ n, n < (BlockData.encode b).length →
      (BlockData.decode ((BlockData.encode b).take n)).1 = none) ∧
    (∀ v : ValidationCode, v.WF → ∀ n, n < (ValidationCode.encode v).length →
      (ValidationCode.decode ((ValidationCode.encode v).take n)).1 = none) :=
  ⟨fun _ h _ hn => decode_take_none (id_decode_RT h) id_decode_mono hn,
   fun _ h _ hn => decode_take_none (chain_decode_RT h) chain_decode_mono hn,
   fun _ h _ hn => decode_take_none (dutyRoster_decode_RT h) dutyRoster_decode_mono hn,
   fun _ h _ hn =>
     decode_take_none (candidateReceipt_decode_RT h) candidateReceipt_decode_mono hn,
   fun _ h _ hn => decode_take_none (statement_decode_RT h) statement_decode_mono hn,
   fun _ h _ hn => decode_take_none (message_decode_RT h) message_decode_mono hn,
   fun _ h _ hn =>
     decode_take_none (consolidatedIngress_decode_RT h) consolidatedIngress_decode_mono hn,
   fun _ h _ hn => decode_take_none (headData_decode_RT h) headData_decode_mono hn,
   fun _ h _ hn => decode_take_none (activity_decode_RT h) activity_decode_mono hn,
   fun _ h _ hn => decode_take_none (log_decode_RT h) log_decode_mono hn,
   fun _ h _ hn => decode_take_none (blockData_decode_RT h) blockData_decode_mono hn,
   fun _ h _ hn =>
     decode_take_none (validationCode_decode_RT h) validationCode_decode_mono hn⟩

/-- C7 witness: each conjunct evaluated at a concrete value with the
last byte of its encoding removed. -/
theorem C7_strict_prefixes_fail_witness :
    (Id.decode ((Id.encode (Id.mk 7)).take 3)).1 = none ∧
    (Chain.decode ((Chain.encode (Chain.Parachain (Id.mk 7))).take 4)).1 = none ∧
    (DutyRoster.decode ((DutyRoster.encode (DutyRoster.mk [Chain.Relay] [])).take 8)).1 =
      none ∧
    (CandidateReceipt.decode ((CandidateReceipt.encode
      (CandidateReceipt.mk (Id.mk 1) (H256.mk (List.replicate 32 0))
        (HeadData.mk []) [] [] 3)).take 55)).1 = none ∧
    (Statement.decode ((Statement.encode
      (Statement.Valid (H256.mk (List.replicate 32 5)))).take 32)).1 = none ∧
    (Message.decode ((Message.encode (Message.mk [1])).take 4)).1 = none ∧
    (ConsolidatedIngress.decode ((ConsolidatedIngress.encode
      (ConsolidatedIngress.mk [(Id.mk 1, [])])).take 11)).1 = none ∧
    (HeadData.decode ((HeadData.encode (HeadData.mk [1])).take 4)).1 = none ∧
    (Activity.decode ((Activity.encode (Activity.mk [1])).take 4)).1 = none ∧
    (Log.decode ((Log.encode (Log.mk [1])).take 4)).1 = none ∧
    (BlockData.decode ((BlockData.encode (BlockData.mk [9])).take 4)).1 = none ∧
    (ValidationCode.decode ((ValidationCode.encode (ValidationCode.mk [1])).take 4)).1 =
      none :=
  ⟨C7_strict_prefixes_fail.1 _ (by decide) 3 (by decide),
   C7_strict_prefixes_fail.2.1 _ (by decide) 4 (by decide),
   C7_strict_prefixes_fail.2.2.1 _ (by decide) 8 (by decide),
   C7_strict_prefixes_fail.2.2.2.1 _ (by decide) 55 (by decide),
   C7_strict_prefixes_fail.2.2.2.2.1 _ (by decide) 32 (by decide),
   C7_strict_prefixes_fail.2.2.2.2.2.1 _ (by decide) 4 (by decide),
   C7_strict_prefixes_fail.2.2.2.2.2.2.1 _ (by decide) 11 (by decide),
   C7_strict_prefixes_fail.2.2.2.2.2.2.2.1 _ (by decide) 4 (by decide),
   C7_strict_prefixes_fail.2.2.2.2.2.2.2.2.1 _ (by decide) 4 (by decide),
   C7_strict_prefixes_fail.2.2.2.2.2.2.2.2.2.1 _ (by decide) 4 (by decide),
   C7_strict_prefixes_fail.2.2.2.2.2.2.2.2.2.2.1 _ (by decide) 4 (by decide),
   C7_strict_prefixes_fail.2.2.2.2.2.2.2.2.2.2.2 _ (by decide) 4 (by decide)⟩

/-- C8: the `Id` newtype is wire- and order-transparent over u32: the
two `From` conversions are mutually inverse, encoding an `Id` equals
encoding the underlying u32, and comparison is numeric. -/
theorem C8_id_transparent :
    (∀ x : Nat, Id.intoU32 (Id.fromU32 x) = x) ∧
    (∀ i : Id, Id.fromU32 (Id.intoU32 i) = i) ∧
    (∀ x : Nat, Id.encode (Id.fromU32 x) = encodeU32 x) ∧
    (∀ a b : Id, Id.cmp a b = compareNat (Id.intoU32 a) (Id.intoU32 b)) :=
  ⟨fun _ => rfl, fun _ => rfl, fun _ => rfl, fun _ _ => rfl⟩

/-- C9: when `Chain::decode` or `Statement::decode` fails on a non-empty
input because of an unrecognized discriminant, exactly one byte (the
discriminant) has been consumed. -/
theorem C9_unknown_discriminant_consumes_one :
    (∀ b rest, b ≠ 0 → b ≠ 1 → Chain.decode (b :: rest) = (none, rest)) ∧
    (∀ b rest, b ≠ 1 → b ≠ 2 → b ≠ 3 → b ≠ 4 →
      Statement.decode (b :: rest) = (none, rest)) :=
  ⟨chain_decode_unknown, statement_decode_unknown⟩

/-- C9 witness: discriminant 7 with a two-byte tail, for both enums. -/
theorem C9_unknown_discriminant_consumes_one_witness :
    Chain.decode (7 :: [5, 6]) = (none, [5, 6]) ∧
    Statement.decode (7 :: [5, 6]) = (none, [5, 6]) :=
  ⟨C9_unknown_discriminant_consumes_one.1 7 [5, 6] (by decide) (by decide),
   C9_unknown_discriminant_consumes_one.2 7 [5, 6] (by decide) (by decide) (by decide)
     (by decide)⟩

/-- C10: `Activity` and `Log` have codecs identical to the underlying
`Vec<u8>` codec: same encoding bytes, and decode is exactly the byte
sequence decode followed by wrapping. -/
theorem C10_wrapper_codecs_are_vec_u8 :
    (∀ b : List Nat, Activity.encode (Activity.mk b) = encodeBytes b) ∧
    (∀ b : List Nat, Log.encode (Log.mk b) = encodeBytes b) ∧
    (∀ input, Activity.decode input =
      ((decodeBytes input).1.map Activity.mk, (decodeBytes input).2)) ∧
    (∀ input, Log.decode input =
      ((decodeBytes input).1.map Log.mk, (decodeBytes input).2)) := by
  refine ⟨fun _ => rfl, fun _ => rfl, fun input => ?_, fun input => ?_⟩
  · unfold Activity.decode decMap
    rcases hd : decodeBytes input with ⟨o, rest⟩
    cases o <;> rfl
  · unfold Log.decode decMap
    rcases hd : decodeBytes input with ⟨o, rest⟩
    cases o <;> rfl

end PolkadotRuntime
